import Mathlib

/-!
Verification of the SOPS YAML decrypt engine in `src/airflow/sops/yaml.py`.

The Python source is shallowly embedded below.  Python `bytes` values are
modelled as `List Nat` (one `Nat` per byte), Python scalar values as `Value`,
and the YAML document tree as the mutual inductive `Node` / `EntryList` /
`NodeList` (mappings keep declared key order, as `ruamel` dicts do).  The
external collaborators (the AES-GCM cipher from `cryptography`, the GCP KMS
client, the gpg subprocess, and `hashlib.sha512`) are abstracted as an
`Oracle` of pure functions; everything else is translated from the source.
Observable side effects (`warnings.warn`, `print(file=sys.stderr)`, digest
updates, cipher invocations) are recorded in an explicit state `St` that is
returned on both success and failure, mirroring the fact that those effects
have already happened when an exception propagates.
-/

/-- A Python `bytes` value: a list of byte values. -/
abbrev ByteStr := List Nat

/-- Python exceptions that the embedded code can raise.  `systemExit` models
`SystemExit` as raised by `_panic` (the message already carries the
`"Decrypt error: "` prefix that `_panic` adds). -/
inductive PyErr where
  | systemExit (msg : String) (code : Nat)
  | typeError
  | keyError (k : String)
  | valueError
  | unicodeDecodeError
  | binasciiError
  | attributeError
  | invalidTag
deriving DecidableEq, Repr

/-- Python scalar values that occur as YAML leaves or are produced by
`_decrypt`.  A float is kept as its literal text: IEEE semantics are outside
the scope of this development and no verified claim inspects a float value. -/
inductive Value where
  | vStr (s : String)
  | vBytes (b : ByteStr)
  | vInt (n : Int)
  | vFloat (lit : String)
  | vBool (b : Bool)
  | vNone
deriving DecidableEq, Repr

mutual
/-- A YAML document node: mapping, sequence, or scalar leaf. -/
inductive Node where
  | map (es : EntryList)
  | seq (xs : NodeList)
  | leaf (v : Value)
deriving DecidableEq, Repr
/-- The ordered entries of a YAML mapping (keys in declared order). -/
inductive EntryList where
  | nil
  | cons (k : String) (v : Node) (rest : EntryList)
deriving DecidableEq, Repr
/-- The ordered items of a YAML sequence. -/
inductive NodeList where
  | nil
  | cons (x : Node) (rest : NodeList)
deriving DecidableEq, Repr
end

/-- First value bound to key `k`, like a Python dict subscript (dict keys are
unique, so first match is the match). -/
def EntryList.lookup : EntryList → String → Option Node
  | .nil, _ => none
  | .cons k v rest, k' => if k = k' then some v else rest.lookup k'

/-- Whether the mapping has key `k`. -/
def EntryList.hasKey : EntryList → String → Bool
  | .nil, _ => false
  | .cons k _ rest, k' => k = k' || rest.hasKey k'

def EntryList.isEmpty : EntryList → Bool
  | .nil => true
  | .cons _ _ _ => false

def NodeList.isEmpty : NodeList → Bool
  | .nil => true
  | .cons _ _ => false

/-- Remove every entry whose key is `k` (for `tree.pop('sops', None)`; keys
are unique in a parsed YAML mapping, so this removes at most one entry). -/
def EntryList.removeKey : EntryList → String → EntryList
  | .nil, _ => .nil
  | .cons k v rest, k' => if k = k' then rest.removeKey k' else .cons k v (rest.removeKey k')

/-- UTF-8 encoding of one character (the standard 1-4 byte encoding). -/
def utf8EncodeChar (c : Char) : List Nat :=
  let n := c.toNat
  if n < 0x80 then [n]
  else if n < 0x800 then [0xC0 + n / 64, 0x80 + n % 64]
  else if n < 0x10000 then [0xE0 + n / 4096, 0x80 + n / 64 % 64, 0x80 + n % 64]
  else [0xF0 + n / 262144, 0x80 + n / 4096 % 64, 0x80 + n / 64 % 64, 0x80 + n % 64]

/-- Python `s.encode('utf-8')`. -/
def encodeUtf8 (s : String) : ByteStr :=
  s.data.flatMap utf8EncodeChar

/-- Python `bytes.lower()`: lowercases ASCII letters only. -/
def asciiLower (b : ByteStr) : ByteStr :=
  b.map fun c => if 65 ≤ c ∧ c ≤ 90 then c + 32 else c

/-- Whether `needle` occurs as a contiguous run inside `hay` (Python
`needle in hay` on strings/bytes). -/
def bytesInfix (needle hay : ByteStr) : Bool :=
  (List.range (hay.length + 1)).any fun i => needle.isPrefixOf (hay.drop i)

/-- Substring test on strings via their UTF-8 bytes. -/
def strInfix (needle hay : String) : Bool :=
  bytesInfix (encodeUtf8 needle) (encodeUtf8 hay)

/-- Drop `pre` from the front of `s`, or fail. -/
def stripPrefixB (pre s : ByteStr) : Option ByteStr :=
  if pre.isPrefixOf s then some (s.drop pre.length) else none

/-- Strict UTF-8 decoding of a byte string, as Python `bytes.decode('utf-8')`
(errors='strict'): rejects stray continuation bytes, overlong encodings,
surrogates and code points above U+10FFFF. -/
def decodeUtf8 : ByteStr → Option (List Char)
  | [] => some []
  | b :: rest =>
    if b < 0x80 then
      (decodeUtf8 rest).map fun cs => Char.ofNat b :: cs
    else if b < 0xC2 then none
    else if b < 0xE0 then
      match rest with
      | c1 :: rest2 =>
        if 0x80 ≤ c1 ∧ c1 < 0xC0 then
          let cp := (b - 0xC0) * 64 + (c1 - 0x80)
          (decodeUtf8 rest2).map fun cs => Char.ofNat cp :: cs
        else none
      | _ => none
    else if b < 0xF0 then
      match rest with
      | c1 :: c2 :: rest2 =>
        if (0x80 ≤ c1 ∧ c1 < 0xC0) ∧ (0x80 ≤ c2 ∧ c2 < 0xC0) then
          let cp := (b - 0xE0) * 4096 + (c1 - 0x80) * 64 + (c2 - 0x80)
          if cp < 0x800 ∨ (0xD800 ≤ cp ∧ cp ≤ 0xDFFF) then none
          else (decodeUtf8 rest2).map fun cs => Char.ofNat cp :: cs
        else none
      | _ => none
    else if b < 0xF5 then
      match rest with
      | c1 :: c2 :: c3 :: rest2 =>
        if (0x80 ≤ c1 ∧ c1 < 0xC0) ∧ (0x80 ≤ c2 ∧ c2 < 0xC0) ∧ (0x80 ≤ c3 ∧ c3 < 0xC0) then
          let cp := (b - 0xF0) * 262144 + (c1 - 0x80) * 4096 + (c2 - 0x80) * 64 + (c3 - 0x80)
          if cp < 0x10000 ∨ 0x10FFFF < cp then none
          else (decodeUtf8 rest2).map fun cs => Char.ofNat cp :: cs
        else none
      | _ => none
    else none

/-- Python `bytes.decode('utf-8')` to a `String`. -/
def decodeUtf8Str (b : ByteStr) : Option String :=
  (decodeUtf8 b).map fun cs => String.mk cs

/-- Python `int(s)` on the text forms that occur in this program: optional
ASCII spaces around an optional sign followed by decimal digits.  (Python
also accepts underscores between digits and unicode digits; those forms do
not occur in version strings or sops payloads and are modelled as errors.) -/
def pyIntParse (s : String) : Except PyErr Int :=
  let cs := s.data.dropWhile (fun c => c.toNat = 32) |>.reverse.dropWhile (fun c => c.toNat = 32) |>.reverse
  let (neg, ds) : Bool × List Char :=
    match cs with
    | c :: rest => if c.toNat = 45 then (true, rest) else if c.toNat = 43 then (false, rest) else (false, cs)
    | [] => (false, [])
  if ds.isEmpty ∨ ds.any (fun c => ¬ c.isDigit) then .error .valueError
  else
    let n : Nat := ds.foldl (fun a c => a * 10 + (c.toNat - 48)) 0
    .ok (if neg then -(n : Int) else (n : Int))

/-- Whether Python `float(s)` would accept `s` (sign, digits with optional
point and exponent, or inf/infinity/nan; approximate in the corners, which no
claim exercises). -/
def pyFloatOk (s : String) : Bool :=
  let cs := s.data.dropWhile (fun c => c.toNat = 32) |>.reverse.dropWhile (fun c => c.toNat = 32) |>.reverse
  let cs := match cs with
    | c :: rest => if c.toNat = 45 ∨ c.toNat = 43 then rest else cs
    | [] => []
  let low := cs.map Char.toLower
  if low = "inf".data ∨ low = "infinity".data ∨ low = "nan".data then true
  else
    let expOk := fun (ex : List Char) =>
      let ex := match ex with
        | c :: rest => if c.toNat = 45 ∨ c.toNat = 43 then rest else ex
        | [] => []
      !ex.isEmpty && ex.all Char.isDigit
    let mantExp := fun (m : List Char) =>
      match m.splitOn (Char.ofNat 101) with
      | [mant] => !mant.isEmpty && mant.all Char.isDigit
      | [mant, ex] => !mant.isEmpty && mant.all Char.isDigit && expOk ex
      | _ => false
    match cs.splitOn (Char.ofNat 46) with
    | [whole] => mantExp whole
    | [whole, frac] =>
      match frac.splitOn (Char.ofNat 101) with
      | [f] => (!whole.isEmpty || !f.isEmpty) && whole.all Char.isDigit && f.all Char.isDigit
      | [f, ex] =>
        (!whole.isEmpty || !f.isEmpty) && whole.all Char.isDigit && f.all Char.isDigit && expOk ex
      | _ => false
    | _ => false

/-- Value of one base64 alphabet byte. -/
def b64Val (c : Nat) : Option Nat :=
  if 65 ≤ c ∧ c ≤ 90 then some (c - 65)
  else if 97 ≤ c ∧ c ≤ 122 then some (c - 97 + 26)
  else if 48 ≤ c ∧ c ≤ 57 then some (c - 48 + 52)
  else if c = 43 then some 62
  else if c = 47 then some 63
  else none

/-- Decode base64 sextets (4 chars to 3 bytes, with 2- and 3-char tails). -/
def b64Quads : List Nat → Option ByteStr
  | [] => some []
  | [a, b] => some [a * 4 + b / 16]
  | [a, b, c] => some [a * 4 + b / 16, b % 16 * 16 + c / 4]
  | a :: b :: c :: d :: rest =>
    (b64Quads rest).map fun tl =>
      (a * 4 + b / 16) :: (b % 16 * 16 + c / 4) :: (c % 4 * 64 + d) :: tl
  | _ => none

/-- Python `base64.b64decode` (default `validate=False`): bytes outside the
alphabet are discarded, `=` terminates the data, and the total length of kept
bytes must be a multiple of 4 or a `binascii.Error` is raised (modelled as
`none`). -/
def b64decodeB (s : ByteStr) : Option ByteStr :=
  let kept := s.filter fun c => (b64Val c).isSome ∨ c = 61
  let data := kept.takeWhile fun c => c ≠ 61
  let pads := kept.length - data.length
  if (data.length + pads) % 4 ≠ 0 then none
  else if data.length % 4 = 1 then none
  else b64Quads (data.filterMap b64Val)

/-- Python `str(value)` for the scalar values of this program.  `str` of a
float literal is approximated by the literal itself, and `str` of `bytes` by
a `repr`-style rendering; no verified claim depends on either corner. -/
def pyStr : Value → String
  | .vStr s => s
  | .vInt n => toString n
  | .vBool b => if b then "True" else "False"
  | .vFloat lit => lit
  | .vNone => "None"
  | .vBytes b => "b\x27" ++ String.mk ((b.map Char.ofNat)) ++ "\x27"

/-- The helper `_to_bytes`: identity on `bytes`, otherwise
`str(value).encode('utf-8')`. -/
def to_bytes : Value → ByteStr
  | .vBytes b => b
  | v => encodeUtf8 (pyStr v)

/-- Python `value.encode('utf-8')`: only `str` has `.encode`; every other
scalar raises `AttributeError`. -/
def pyEncode : Value → Except PyErr ByteStr
  | .vStr s => .ok (encodeUtf8 s)
  | _ => .error .attributeError

/-- Python truthiness of a tree node (`if not entry: ...`).  A float literal
is falsy iff its digits are all zero (approximating `float(lit) == 0.0`). -/
def pyTruthy : Node → Bool
  | .map es => ¬ es.isEmpty
  | .seq xs => ¬ xs.isEmpty
  | .leaf (.vStr s) => s ≠ ""
  | .leaf (.vBytes b) => ¬ b.isEmpty
  | .leaf (.vInt n) => n ≠ 0
  | .leaf (.vBool b) => b
  | .leaf (.vFloat lit) => ¬ (lit.data.filter Char.isDigit ≠ [] ∧
      (lit.data.filter Char.isDigit).all fun c => c.toNat = 48)
  | .leaf .vNone => false

/-- Python `==` between the scalar values of this program.  Values of
different types are unequal except for the numeric tower, of which only
`bool`/`int` unification can matter here. -/
def pyEqV (a b : Value) : Bool :=
  match a, b with
  | .vBool x, .vInt m => (if x then (1 : Int) else 0) = m
  | .vInt m, .vBool x => (if x then (1 : Int) else 0) = m
  | x, y => x = y

/-- Python subscript `node[k]` with a string key: mapping lookup
(`KeyError` when absent); sequences, strings and other scalars raise
`TypeError`. -/
def pyIndex (n : Node) (k : String) : Except PyErr Node :=
  match n with
  | .map es =>
    match es.lookup k with
    | some v => .ok v
    | none => .error (.keyError k)
  | _ => .error .typeError

/-- Python `k in node`: key test for mappings, element test for sequences,
substring test for strings; `in` on other scalars raises `TypeError`. -/
def pyContains (k : String) (n : Node) : Except PyErr Bool :=
  match n with
  | .map es => .ok (es.hasKey k)
  | .seq xs => .ok (go xs)
  | .leaf (.vStr s) => .ok (strInfix k s)
  | .leaf (.vBytes _) => .error .typeError
  | .leaf _ => .error .typeError
where
  go : NodeList → Bool
    | .nil => false
    | .cons x rest => (match x with | .leaf v => pyEqV v (.vStr k) | _ => false) || go rest

/-- Python iteration `for entry in node`: sequences yield their items, a
mapping yields its keys (as strings), a string yields its characters, bytes
yield ints, other scalars raise `TypeError`. -/
def pyIter (n : Node) : Except PyErr NodeList :=
  match n with
  | .seq xs => .ok xs
  | .map es => .ok (keys es)
  | .leaf (.vStr s) => .ok (chars s.data)
  | .leaf (.vBytes b) => .ok (ints b)
  | .leaf _ => .error .typeError
where
  keys : EntryList → NodeList
    | .nil => .nil
    | .cons k _ rest => .cons (.leaf (.vStr k)) (keys rest)
  chars : List Char → NodeList
    | [] => .nil
    | c :: rest => .cons (.leaf (.vStr (String.mk [c]))) (chars rest)
  ints : ByteStr → NodeList
    | [] => .nil
    | b :: rest => .cons (.leaf (.vInt b)) (ints rest)


/-- Python `s.split('.')`: split on every separator occurrence, keeping empty
pieces (`""` splits to `[""]`). -/
def splitOnChar (sep : Nat) : List Char → List (List Char)
  | [] => [[]]
  | c :: rest =>
    let r := splitOnChar sep rest
    if c.toNat = sep then [] :: r
    else
      match r with
      | h :: t => (c :: h) :: t
      | [] => [[c]]

/-- `str.split('.')` on a Lean `String`. -/
def pySplitDot (s : String) : List String :=
  (splitOnChar 46 s.data).map fun cs => String.mk cs

/-- Python `s.endswith(suffix)`. -/
def pyEndsWith (s suffix : String) : Bool :=
  suffix.data.isSuffixOf s.data

/-- Python `s.upper()` on the ASCII strings this program uppercases (hex
digests). -/
def pyUpper (s : String) : String :=
  String.mk (s.data.map fun c =>
    if 97 ≤ c.toNat ∧ c.toNat ≤ 122 then Char.ofNat (c.toNat - 32) else c)

/-- Decimal digits of a natural number, by fuel. -/
def natDigitsAux : Nat → Nat → List Char → List Char
  | 0, _, acc => acc
  | fuel + 1, n, acc =>
    let acc2 := Char.ofNat (48 + n % 10) :: acc
    if n < 10 then acc2 else natDigitsAux fuel (n / 10) acc2

/-- Python `str(i)` for the loop indices interpolated into warnings. -/
def pyStrInt (i : Int) : String :=
  let digits := String.mk (natDigitsAux (i.natAbs + 1) i.natAbs [])
  if i < 0 then "-" ++ digits else digits

/-- The hardcoded `INPUT_VERSION = '1.18'`. -/
def INPUT_VERSION : String := "1.18"

/-- The designated plaintext-subtree suffix `UNENCRYPTED_SUFFIX`. -/
def UNENCRYPTED_SUFFIX : String := "_unencrypted"

/-- The `_panic(msg, error_code)` helper:
`raise SystemExit("Decrypt error: %s" % msg, error_code)`. -/
def panicErr (msg : String) (code : Nat) : PyErr :=
  .systemExit ("Decrypt error: " ++ msg) code

/-- The comparison loop of `_a_is_newer_than_b` (yaml.py lines 95-99): runs
over the common prefix of the component lists, returning early with `True`
the first time `int(A[i]) > int(B[i])`, and otherwise reporting whether all
compared components were equal.  `int()` is applied lazily, exactly as the
loop does. -/
def verLoop : List String → List String → Bool → Except PyErr (Bool × Bool)
  | a :: as, b :: bs, eq => do
    let ai ← pyIntParse a
    let bi ← pyIntParse b
    if bi < ai then .ok (true, eq)
    else verLoop as bs (eq && decide (ai = bi))
  | _, _, eq => .ok (false, eq)

/-- The function `_a_is_newer_than_b(A, B)` (yaml.py lines 85-104): semver-ish
comparison of dot-separated version strings. -/
def a_is_newer_than_b (A B : String) : Except PyErr Bool := do
  let ac := pySplitDot A
  let bc := pySplitDot B
  let (early, eq) ← verLoop ac bc true
  if early then .ok true
  else .ok (eq && decide (bc.length < ac.length))

/-- Greedy match of one regex group `(.+)` against `s`: Python tries the
longest candidate first and backtracks; a candidate must be nonempty and
newline-free (`.` does not match `\n`), and the continuation must accept the
remainder. -/
def greedyGroup (s : ByteStr) (cont : ByteStr → Option α) : Option (ByteStr × α) :=
  ((List.range (s.length + 1)).reverse).findSome? fun n =>
    let g := s.take n
    if g.isEmpty ∨ g.contains 10 then none
    else (cont (s.drop n)).map fun r => (g, r)

/-- The regex of `_decrypt` (yaml.py lines 115-120):
`^ENC\[AES256_GCM,data:(.+),iv:(.+),tag:(.+)(,type:(.+))?\]`, where the
`type` group is present iff the format gate `INPUT_VERSION > 0.8` held when
the pattern was built.  `re.match` anchors at the start only, so trailing
bytes after the closing bracket are allowed. -/
def encMatch (withType : Bool) (v : ByteStr) :
    Option (ByteStr × ByteStr × ByteStr × Option ByteStr) :=
  (stripPrefixB (encodeUtf8 "ENC[AES256_GCM,data:") v).bind fun s1 =>
  greedyGroup s1 fun r1 =>
    (stripPrefixB (encodeUtf8 ",iv:") r1).bind fun s2 =>
    greedyGroup s2 fun r2 =>
      (stripPrefixB (encodeUtf8 ",tag:") r2).bind fun s3 =>
      greedyGroup s3 fun r3 =>
        if withType then
          (stripPrefixB (encodeUtf8 ",type:") r3).bind fun s4 =>
          (greedyGroup s4 fun r4 =>
            (stripPrefixB (encodeUtf8 "]") r4).map fun _ => ()).map fun p => some p.1
        else
          (stripPrefixB (encodeUtf8 "]") r3).map fun _ => (none : Option ByteStr)

/-- One invocation of the AES-256-GCM decryptor from `_decrypt` (yaml.py
lines 130-135): the data handed to
`Cipher(...).decryptor()` / `authenticate_additional_data` / `update`. -/
structure CipherCall where
  key : ByteStr
  iv : ByteStr
  tag : ByteStr
  aad : ByteStr
  ct : ByteStr
deriving DecidableEq, Repr

/-- Observable session state: the byte stream fed to the running
`hashlib.sha512` digest, the texts passed to `warnings.warn` or printed to
stderr, and the AEAD invocations made so far. -/
structure St where
  hashInput : ByteStr
  warnings : List String
  calls : List CipherCall
deriving DecidableEq, Repr

/-- External collaborators, abstracted as pure functions: AES-256-GCM
decryption (`.error` is the `InvalidTag` authentication failure), the GCP KMS
`decrypt` call (`.error` carries the exception text), the gpg subprocess
(stdout bytes or an exception text), and the hex digest of `hashlib.sha512`
over a complete byte stream. -/
structure Oracle where
  aesgcm : ByteStr → ByteStr → ByteStr → ByteStr → ByteStr → Except Unit ByteStr
  kms : String → ByteStr → Except String ByteStr
  gpg : String → Except String ByteStr
  sha512hex : ByteStr → String

/-- `valtype` in `_decrypt` is the Python str `'str'` before the format gate
and a `bytes` regex group after it; under Python 3 the two kinds never
compare equal, so the distinction is kept. -/
inductive ValType where
  | pstr (s : String)
  | pbytes (b : ByteStr)
deriving DecidableEq, Repr

/-- Python `==` between `valtype` and a `bytes` literal: a str never equals a
bytes object under Python 3. -/
def ValType.eqBytes : ValType → ByteStr → Bool
  | .pstr _, _ => false
  | .pbytes a, b => a = b

/-- The function `_decrypt(value, key, aad, stash, digest, unencrypted)`
(yaml.py lines 107-170).  `useDigest` is whether a digest object was passed
(the shared document digest lives in `St.hashInput`).  The `stash` parameter
is dropped: `_decrypt_stream` never passes a stash, and since
`_walk_and_decrypt`/`_walk_list_and_decrypt` seed children with a fresh empty
dict (falsy), the `if stash:` branches (lines 137-141) never execute in this
pipeline.  On an exception the state reached so far is returned alongside
the error, since digest updates and cipher calls are already-performed side
effects. -/
def decryptScalar (o : Oracle) (value : Value) (key : ByteStr) (aad : ByteStr)
    (useDigest : Bool) (unencrypted : Bool) (st : St) : Except PyErr Value × St :=
  if unencrypted then
    -- lines 109-113: feed `_to_bytes(value)` to the digest and pass through
    let st := if useDigest then { st with hashInput := st.hashInput ++ to_bytes value } else st
    (.ok value, st)
  else
    match pyEncode value with  -- `value.encode('utf-8')`
    | .error e => (.error e, st)
    | .ok vb =>
      match a_is_newer_than_b INPUT_VERSION "0.8" with  -- line 117 format gate
      | .error e => (.error e, st)
      | .ok withType =>
        match encMatch withType vb with
        | none => (.ok value, st)  -- line 122: not encrypted, returned as is
        | some (g1, g2, g3, g4o) =>
          match b64decodeB g1 with
          | none => (.error .binasciiError, st)
          | some enc_value =>
            match b64decodeB g2 with
            | none => (.error .binasciiError, st)
            | some iv =>
              match b64decodeB g3 with
              | none => (.error .binasciiError, st)
              | some tag =>
                -- line 127-129: valtype = 'str', overwritten by group 4 when gated
                let valtype : ValType :=
                  match g4o with
                  | none => .pstr "str"
                  | some g4 => .pbytes g4
                let st := { st with calls := st.calls ++ [⟨key, iv, tag, aad, enc_value⟩] }
                match o.aesgcm key iv tag aad enc_value with
                | .error _ => (.error .invalidTag, st)  -- InvalidTag from finalize()
                | .ok cleartext =>
                  -- line 143-144: digest.update(cleartext) before type decoding
                  let st := if useDigest then { st with hashInput := st.hashInput ++ cleartext } else st
                  if valtype.eqBytes (encodeUtf8 "bytes") then
                    (.ok (.vBytes cleartext), st)
                  else if valtype.eqBytes (encodeUtf8 "str") then
                    match decodeUtf8Str cleartext with
                    | none => (.ok (.vBytes cleartext), st)  -- UnicodeDecodeError caught
                    | some s => (.ok (.vStr s), st)
                  else if valtype.eqBytes (encodeUtf8 "int") then
                    match decodeUtf8Str cleartext with
                    | none => (.error .unicodeDecodeError, st)
                    | some s =>
                      match pyIntParse s with
                      | .error e => (.error e, st)
                      | .ok n => (.ok (.vInt n), st)
                  else if valtype.eqBytes (encodeUtf8 "float") then
                    match decodeUtf8Str cleartext with
                    | none => (.error .unicodeDecodeError, st)
                    | some s => if pyFloatOk s then (.ok (.vFloat s), st) else (.error .valueError, st)
                  else if valtype.eqBytes (encodeUtf8 "bool") then
                    (.ok (.vBool (asciiLower cleartext = encodeUtf8 "true")), st)
                  else
                    -- line 170: `_panic("unknown type " + valtype, 23)`; under
                    -- Python 3 `valtype` is bytes here, so the str + bytes
                    -- concatenation raises TypeError before _panic is reached;
                    -- only a str valtype would produce the intended panic
                    match valtype with
                    | .pstr s => (.error (panicErr ("unknown type " ++ s) 23), st)
                    | .pbytes _ => (.error .typeError, st)

mutual
/-- Dispatch on one child value, as the bodies of `_walk_and_decrypt`
(lines 294-308) and `_walk_list_and_decrypt` (lines 259-269) do: nested
mappings go through `_walk_and_decrypt(..., isRoot=False)` — whose prologue
and MAC epilogue are both guarded by `isRoot`, so it reduces to its entries
loop, embedded here as `walkEntries` — nested sequences through
`_walk_list_and_decrypt`, and scalars through `_decrypt`.
(`PreservedScalarString` is a `str` subclass whose re-wrapping at line 305
preserves the value and is not modelled separately.) -/
def walkValue (o : Oracle) (key : ByteStr) (v : Node) (aad : ByteStr)
    (useDigest unencrypted : Bool) (st : St) : Except PyErr Node × St :=
  match v with
  | .map m =>
    match walkEntries o key m aad aad useDigest false unencrypted st with
    | (.ok m', st') => (.ok (.map m'), st')
    | (.error e, st') => (.error e, st')
  | .seq xs =>
    match walkItems o key xs aad useDigest unencrypted st with
    | (.ok xs', st') => (.ok (.seq xs'), st')
    | (.error e, st') => (.error e, st')
  | .leaf val =>
    match decryptScalar o val key aad useDigest unencrypted st with
    | (.ok w, st') => (.ok (.leaf w), st')
    | (.error e, st') => (.error e, st')
termination_by structural v
/-- The `for k, v in branch.items()` loop of `_walk_and_decrypt`
(yaml.py lines 279-308).  `carry` is the mutable `carryaad` buffer used only
by the legacy pre-0.9 AAD scheme. -/
def walkEntries (o : Oracle) (key : ByteStr) (es : EntryList) (aad carry : ByteStr)
    (useDigest : Bool) (isRoot unencrypted : Bool) (st : St) : Except PyErr EntryList × St :=
  match es with
  | .nil => (.ok .nil, st)
  | .cons k v rest =>
    if k = "sops" ∧ isRoot then
      -- line 280-281: everything under the root `sops` key stays in clear
      match walkEntries o key rest aad carry useDigest isRoot unencrypted st with
      | (.ok rest', st') => (.ok (.cons k v rest'), st')
      | (.error e, st') => (.error e, st')
    else
      let unencB := unencrypted || pyEndsWith k UNENCRYPTED_SUFFIX
      match a_is_newer_than_b INPUT_VERSION "0.9" with  -- line 285 format gate
      | .error e => (.error e, st)
      | .ok newer =>
        let caad := if newer then aad ++ encodeUtf8 k ++ [58] else carry ++ encodeUtf8 k
        let carry' := if newer then carry else caad
        match walkValue o key v caad useDigest unencB st with
        | (.error e, st') => (.error e, st')
        | (.ok v', st') =>
          match walkEntries o key rest aad carry' useDigest isRoot unencrypted st' with
          | (.ok rest', st'') => (.ok (.cons k v' rest'), st'')
          | (.error e, st'') => (.error e, st'')
termination_by structural es
/-- The loop of `_walk_list_and_decrypt` (yaml.py lines 250-270): every item
is processed with the sequence's own `aad`, unchanged. -/
def walkItems (o : Oracle) (key : ByteStr) (xs : NodeList) (aad : ByteStr)
    (useDigest unencrypted : Bool) (st : St) : Except PyErr NodeList × St :=
  match xs with
  | .nil => (.ok .nil, st)
  | .cons x rest =>
    match walkValue o key x aad useDigest unencrypted st with
    | (.error e, st') => (.error e, st')
    | (.ok x', st') =>
      match walkItems o key rest aad useDigest unencrypted st' with
      | (.ok rest', st'') => (.ok (.cons x' rest'), st'')
      | (.error e, st'') => (.error e, st'')
termination_by structural xs
end

/-- The MAC epilogue of `_walk_and_decrypt` (yaml.py lines 310-322), run at
the root when `ignoreMac` is false: look up `branch['sops']`, require a
`mac` field (else `_panic(..., 52)`), compare the finalized uppercased
digest with the stored MAC decrypted using the same data key and the
`lastmodified` timestamp as AAD, and `_panic(..., 51)` on mismatch. -/
def verifyMac (o : Oracle) (key : ByteStr) (branch : EntryList) (st : St) :
    Except PyErr Unit × St :=
  match branch.lookup "sops" with
  | none => (.error (.keyError "sops"), st)
  | some sopsN =>
    match pyContains "mac" sopsN with
    | .error e => (.error e, st)
    | .ok false => (.error (panicErr "\x27mac\x27 not found, unable to verify file integrity" 52), st)
    | .ok true =>
      let h := pyUpper (o.sha512hex st.hashInput)
      match pyIndex sopsN "mac" with
      | .error e => (.error e, st)
      | .ok macN =>
        match pyIndex sopsN "lastmodified" with
        | .error e => (.error e, st)
        | .ok lmN =>
          match lmN with
          | .leaf (.vStr lm) =>
            -- orig_h = _decrypt(mac, key, aad=lastmodified.encode('utf-8'))
            -- (no digest, no stash, not unencrypted)
            match macN with
            | .leaf mv =>
              match decryptScalar o mv key (encodeUtf8 lm) false false st with
              | (.error e, st') => (.error e, st')
              | (.ok origH, st') =>
                if pyEqV origH (.vStr h) then (.ok (), st')
                else
                  (.error (panicErr ("Checksum verification failed!\nexpected " ++ pyStr origH ++
                    "\nbut got  " ++ h) 51), st')
            | _ => (.error .attributeError, st)  -- `value.encode` on a non-scalar mac
          | _ => (.error .attributeError, st)  -- `.encode` on a non-str lastmodified

/-- The function `_walk_and_decrypt(branch, key, aad, stash, digest, isRoot,
ignoreMac, unencrypted)` (yaml.py lines 273-324).  At the root with MAC
verification enabled a fresh digest is created (lines 276-277, modelled as
an empty `hashInput` with `useDigest := true`), the entries are walked, and
the MAC epilogue runs (lines 310-322). -/
def walk_and_decrypt (o : Oracle) (key : ByteStr) (branch : EntryList) (aad : ByteStr)
    (useDigest : Bool) (isRoot ignoreMac unencrypted : Bool) (st : St) :
    Except PyErr EntryList × St :=
  let ud := if isRoot ∧ ¬ ignoreMac then true else useDigest
  let st0 := if isRoot ∧ ¬ ignoreMac then { st with hashInput := [] } else st
  match walkEntries o key branch aad aad ud isRoot unencrypted st0 with
  | (.error e, st') => (.error e, st')
  | (.ok branch', st') =>
    if isRoot ∧ ¬ ignoreMac then
      match verifyMac o key branch' st' with
      | (.ok _, st'') => (.ok branch', st'')
      | (.error e, st'') => (.error e, st'')
    else (.ok branch', st')

/-- One KMS unwrap attempt, the `try` block of `_get_key_from_kms`
(yaml.py lines 69-74): `b64decode` the entry's ciphertext and call the KMS
client; any exception (including a base64 error) is caught and reported as
text.  The exception text of a non-oracle failure is abstracted. -/
def kmsUnwrap (o : Oracle) (rid : String) (encN : Node) : Except String ByteStr :=
  match encN with
  | .leaf (.vStr s) =>
    match b64decodeB (encodeUtf8 s) with
    | none => .error "Invalid base64-encoded string"
    | some ct => o.kms rid ct
  | .leaf (.vBytes b) =>
    match b64decodeB b with
    | none => .error "Invalid base64-encoded string"
    | some ct => o.kms rid ct
  | _ => .error "TypeError"

/-- The entry loop of `_get_key_from_kms` (yaml.py lines 54-82).  `i` is the
running index (starts at -1, incremented for every truthy entry), `errors`
the accumulated per-entry failure texts.  Exhaustion warns
`"WARN: no KMS client could be accessed:"` followed by one `"* ..."` line
per recorded error, and returns `None`. -/
def kmsLoop (o : Oracle) (entries : NodeList) (i : Int) (errors : List String) (st : St) :
    Except PyErr (Option ByteStr) × St :=
  match entries with
  | .nil =>
    (.ok none, { st with warnings := st.warnings ++
      ["WARN: no KMS client could be accessed:"] ++ errors.map (fun e => "* " ++ e) })
  | .cons entry rest =>
    if ¬ pyTruthy entry then kmsLoop o rest i errors st
    else
      let i' := i + 1
      match pyIndex entry "enc" with
      | .error (.keyError _) => kmsLoop o rest i' errors st  -- silently skipped
      | .error e => (.error e, st)
      | .ok encN =>
        match pyContains "resource_id" entry with
        | .error e => (.error e, st)
        | .ok hasRid =>
          if ¬ hasRid then
            kmsLoop o rest i' errors { st with warnings := st.warnings ++
              ["WARN: KMS resource id not found skipping entry " ++ pyStrInt i'] }
          else
            match pyIndex entry "resource_id" with
            | .error e => (.error e, st)
            | .ok ridN =>
              if ridN = .leaf (.vStr "") then
                kmsLoop o rest i' errors { st with warnings := st.warnings ++
                  ["WARN: KMS resource id not found skipping entry " ++ pyStrInt i'] }
              else
                match ridN with
                | .leaf (.vStr rid) =>
                  match kmsUnwrap o rid encN with
                  | .ok plaintext => (.ok (some plaintext), st)
                  | .error emsg =>
                    kmsLoop o rest i'
                      (errors ++ ["kms " ++ rid ++ " failed with error: " ++ emsg ++ " "]) st
                | other =>
                  -- a non-str resource id makes DecryptRequest raise; caught
                  -- at line 72 and recorded (exception text abstracted)
                  kmsLoop o rest i'
                    (errors ++ ["kms " ++ pyStrNode other ++ " failed with error: TypeError "]) st
where
  /-- `"%s" % node` for the rare non-scalar resource id; approximate. -/
  pyStrNode : Node → String
    | .leaf v => pyStr v
    | .map _ => "\x7b...\x7d"
    | .seq _ => "[...]"

/-- The function `_get_key_from_kms(tree)` (yaml.py lines 48-82):
`tree['sops']['gcp_kms']` with `KeyError` caught (other exceptions, such as
subscripting a non-mapping, propagate), then the entry loop. -/
def get_key_from_kms (o : Oracle) (tree : Node) (st : St) :
    Except PyErr (Option ByteStr) × St :=
  match pyIndex tree "sops" with
  | .error (.keyError _) => (.ok none, st)
  | .error e => (.error e, st)
  | .ok sopsN =>
    match pyIndex sopsN "gcp_kms" with
    | .error (.keyError _) => (.ok none, st)
    | .error e => (.error e, st)
    | .ok kmsTree =>
      match pyIter kmsTree with
      | .error e => (.error e, st)
      | .ok entries => kmsLoop o entries (-1) [] st

/-- The entry loop of `_get_key_from_pgp` (yaml.py lines 191-214): truthy
entries are indexed, entries without `enc` skipped silently, gpg failures
(any exception in the `try` block, including `.encode` on a non-str `enc`)
print an INFO line and move on, and a returned key is accepted only when it
is exactly 32 bytes.  Exhaustion returns `None` with no message. -/
def pgpLoop (o : Oracle) (entries : NodeList) (i : Int) (st : St) :
    Except PyErr (Option ByteStr) × St :=
  match entries with
  | .nil => (.ok none, st)
  | .cons entry rest =>
    if ¬ pyTruthy entry then pgpLoop o rest i st
    else
      let i' := i + 1
      match pyIndex entry "enc" with
      | .error (.keyError _) => pgpLoop o rest i' st
      | .error e => (.error e, st)
      | .ok encN =>
        match encN with
        | .leaf (.vStr s) =>
          match o.gpg s with
          | .error emsg =>
            pgpLoop o rest i' { st with warnings := st.warnings ++
              ["INFO: PGP decryption failed in entry " ++ pyStrInt i' ++ " with error: " ++ emsg] }
          | .ok keyBytes =>
            if keyBytes.length = 32 then (.ok (some keyBytes), st)
            else pgpLoop o rest i' st
        | _ =>
          -- `enc.encode('utf-8')` raises AttributeError, caught by the broad
          -- except at line 208 (exception text abstracted)
          pgpLoop o rest i' { st with warnings := st.warnings ++
            ["INFO: PGP decryption failed in entry " ++ pyStrInt i' ++ " with error: AttributeError"] }

/-- The function `_get_key_from_pgp(tree)` (yaml.py lines 185-214). -/
def get_key_from_pgp (o : Oracle) (tree : Node) (st : St) :
    Except PyErr (Option ByteStr) × St :=
  match pyIndex tree "sops" with
  | .error (.keyError _) => (.ok none, st)
  | .error e => (.error e, st)
  | .ok sopsN =>
    match pyIndex sopsN "pgp" with
    | .error (.keyError _) => (.ok none, st)
    | .error e => (.error e, st)
    | .ok pgpTree =>
      match pyIter pgpTree with
      | .error e => (.error e, st)
      | .ok entries => pgpLoop o entries (-1) st

/-- The function `_get_key(tree)` (yaml.py lines 327-340): KMS first, then
PGP, else `_panic("could not retrieve a key to encrypt/decrypt the tree")`
with the default error code 1. -/
def get_key (o : Oracle) (tree : Node) (st : St) : Except PyErr ByteStr × St :=
  match get_key_from_kms o tree st with
  | (.error e, st') => (.error e, st')
  | (.ok (some k), st') => (.ok k, st')
  | (.ok none, st') =>
    match get_key_from_pgp o tree st' with
    | (.error e, st'') => (.error e, st'')
    | (.ok (some k), st'') => (.ok k, st'')
    | (.ok none, st'') =>
      (.error (panicErr "could not retrieve a key to encrypt/decrypt the tree" 1), st'')

/-- `datetime.strptime(s, '%Y-%m-%dT%H:%M:%SZ')`, with the datetime encoded
as the lexicographic key `((((y*100+mo)*100+d)*100+h)*100+mi)*100+s`, which
orders exactly as datetimes do.  Inputs are zero-padded RFC3339 stamps (the
form sops writes); a malformed string is a `ValueError`.  Per-month day
counts are not revalidated. -/
def strptimeZ (s : String) : Except PyErr Nat :=
  match s.data.map Char.toNat with
  | [y1, y2, y3, y4, d1, m1, m2, d2, d3, d4, t, h1, h2, c1, mi1, mi2, c2, s1, s2, z] =>
    if d1 = 45 ∧ d2 = 45 ∧ t = 84 ∧ c1 = 58 ∧ c2 = 58 ∧ z = 90 ∧
        [y1, y2, y3, y4, m1, m2, d3, d4, h1, h2, mi1, mi2, s1, s2].all
          (fun c => 48 ≤ c ∧ c ≤ 57) then
      let dig := fun (a b : Nat) => (a - 48) * 10 + (b - 48)
      let y := dig y1 y2 * 100 + dig y3 y4
      let mo := dig m1 m2
      let d := dig d3 d4
      let h := dig h1 h2
      let mi := dig mi1 mi2
      let sec := dig s1 s2
      if 1 ≤ mo ∧ mo ≤ 12 ∧ 1 ≤ d ∧ d ≤ 31 ∧ h ≤ 23 ∧ mi ≤ 59 ∧ sec ≤ 61 then
        .ok (((((y * 100 + mo) * 100 + d) * 100 + h) * 100 + mi) * 100 + sec)
      else .error .valueError
    else .error .valueError
  | _ => .error .valueError

/-- One backend scan of `_check_rotation_needed` (yaml.py lines 223-243):
walk the entries, and for each truthy entry with a `created_at` field set
the warning flag when its timestamp is older than the six-month cutoff. -/
def scanRotation (sixMonthsAgo : Nat) : NodeList → Bool → Except PyErr Bool
  | .nil, flag => .ok flag
  | .cons entry rest, flag =>
    if ¬ pyTruthy entry then scanRotation sixMonthsAgo rest flag
    else
      match pyContains "created_at" entry with
      | .error e => .error e
      | .ok false => scanRotation sixMonthsAgo rest flag
      | .ok true =>
        match pyIndex entry "created_at" with
        | .error e => .error e
        | .ok createdN =>
          match createdN with
          | .leaf (.vStr c) =>
            match strptimeZ c with
            | .error e => .error e
            | .ok d => scanRotation sixMonthsAgo rest (flag || decide (d < sixMonthsAgo))
          | _ => .error .typeError  -- strptime on a non-str
    
/-- The function `_check_rotation_needed(tree)` (yaml.py lines 217-247).
The ambient `datetime.utcnow() - timedelta(days=183)` is passed in as the
precomputed `sixMonthsAgo` key.  Returns whether the rotation advisory is
printed; the print itself carries no data into the rest of the session.
Note the backends scanned are the `kms` and `pgp` lists — not `gcp_kms`. -/
def check_rotation_needed (sixMonthsAgo : Nat) (tree : Node) : Except PyErr Bool := do
  let sopsN ← pyIndex tree "sops"
  let hasKms ← pyContains "kms" sopsN
  let flag1 ←
    if hasKms then do
      let kmsN ← pyIndex sopsN "kms"
      let entries ← pyIter kmsN
      scanRotation sixMonthsAgo entries false
    else pure false
  let hasPgp ← pyContains "pgp" sopsN
  let flag2 ←
    if hasPgp then do
      let pgpN ← pyIndex sopsN "pgp"
      let entries ← pyIter pgpN
      scanRotation sixMonthsAgo entries flag1
    else pure flag1
  pure flag2

/-- The function `_decrypt_stream(file_obj, ignore_mac)` (yaml.py lines
343-352), starting from the already-parsed tree: acquire the data key, run
the rotation check (its flag is discarded), walk and decrypt the tree from
the root, and if the resulting mapping is truthy pop `sops` and return it,
else return `None`. -/
def decrypt_stream (o : Oracle) (sixMonthsAgo : Nat) (tree : Node) (ignoreMac : Bool)
    (st : St) : Except PyErr (Option EntryList) × St :=
  match get_key o tree st with
  | (.error e, st') => (.error e, st')
  | (.ok key, st') =>
    match check_rotation_needed sixMonthsAgo tree with
    | .error e => (.error e, st')
    | .ok _advisory =>
      match tree with
      | .map entries =>
        match walk_and_decrypt o key entries [] false true ignoreMac false st' with
        | (.error e, st'') => (.error e, st'')
        | (.ok branch', st'') =>
          if branch'.isEmpty then (.ok none, st'')
          else (.ok (some (branch'.removeKey "sops")), st'')
      | _ => (.error .attributeError, st')  -- `.items()` on a non-mapping

mutual
/-- The AADs at which the format ≥ 0.9 walk decrypts the leaves of a node,
in traversal order: a mapping key appends `"<key>:"` to the inherited AAD,
while a sequence item inherits the sequence's AAD unchanged. -/
def leafAadsV (aad : ByteStr) : Node → List ByteStr
  | .map es => leafAadsE aad es
  | .seq xs => leafAadsL aad xs
  | .leaf _ => [aad]
termination_by structural v => v
/-- Leaf AADs of mapping entries. -/
def leafAadsE (aad : ByteStr) : EntryList → List ByteStr
  | .nil => []
  | .cons k v rest => leafAadsV (aad ++ encodeUtf8 k ++ [58]) v ++ leafAadsE aad rest
termination_by structural es => es
/-- Leaf AADs of sequence items. -/
def leafAadsL (aad : ByteStr) : NodeList → List ByteStr
  | .nil => []
  | .cons x rest => leafAadsV aad x ++ leafAadsL aad rest
termination_by structural xs => xs
end

mutual
/-- Concatenated `_to_bytes` of a node's leaves, in traversal order: the
digest contribution of a plaintext subtree. -/
def leafBytesV : Node → ByteStr
  | .map es => leafBytesE es
  | .seq xs => leafBytesL xs
  | .leaf v => to_bytes v
termination_by structural v => v
/-- Digest contribution of mapping entries. -/
def leafBytesE : EntryList → ByteStr
  | .nil => []
  | .cons _ v rest => leafBytesV v ++ leafBytesE rest
termination_by structural es => es
/-- Digest contribution of sequence items. -/
def leafBytesL : NodeList → ByteStr
  | .nil => []
  | .cons x rest => leafBytesV x ++ leafBytesL rest
termination_by structural xs => xs
end

/-- The version-comparison semantics stated by the claim: the outcome is
decided at the first position where components differ (a strictly greater
component there wins); with all compared components equal, the version with
more components is newer. -/
def claimIsNewer : List Int → List Int → Bool
  | a :: as, b :: bs => if a ≠ b then decide (b < a) else claimIsNewer as bs
  | as, bs => decide (bs.length < as.length)

/-- Whether some compared component of `as` strictly exceeds that of `bs`. -/
def anyGreater (as bs : List Int) : Bool :=
  (as.zip bs).any fun p => decide (p.2 < p.1)

/-- Whether all compared components agree. -/
def allEqComp (as bs : List Int) : Bool :=
  (as.zip bs).all fun p => decide (p.1 = p.2)

/-- Parse a list of version components with Python `int`, failing on the
first malformed one. -/
def parseComps : List String → Except PyErr (List Int)
  | [] => .ok []
  | s :: rest => do
    let i ← pyIntParse s
    let is ← parseComps rest
    .ok (i :: is)

/-- Fresh session state. -/
def stEmpty : St := ⟨[], [], []⟩

/-- A sample 256-bit data key. -/
def keyA : ByteStr := List.replicate 32 1

/-- A test oracle whose AEAD always authenticates and recovers `pt`, whose
key backends are unavailable, and whose hash of any stream is `"abcd"`. -/
def oracleOf (pt : ByteStr) : Oracle :=
  ⟨fun _ _ _ _ _ => .ok pt, fun _ _ => .error "kms unavailable",
   fun _ => .error "gpg unavailable", fun _ => "abcd"⟩

/-- A test oracle whose KMS unwrap fails with exception text `boom`. -/
def oracleBoom : Oracle :=
  ⟨fun _ _ _ _ _ => .ok [], fun _ _ => .error "boom", fun _ => .error "gpg unavailable",
   fun _ => "abcd"⟩

/-- A test oracle whose KMS unwrap succeeds. -/
def oracleKmsOk : Oracle :=
  ⟨fun _ _ _ _ _ => .ok [], fun _ _ => .ok (encodeUtf8 "KEY"), fun _ => .error "gpg unavailable",
   fun _ => "abcd"⟩

/-- An encrypted scalar with type tag `str` (data/iv/tag decode to `[65]`). -/
def encSample : String := "ENC[AES256_GCM,data:QQ==,iv:QQ==,tag:QQ==,type:str]"

/-- An encrypted scalar with type tag `bool` and ciphertext `yes`. -/
def encBoolSample : String := "ENC[AES256_GCM,data:eWVz,iv:QQ==,tag:QQ==,type:bool]"

/-- An encrypted scalar with the unrecognized type tag `comment`. -/
def encBadSample : String := "ENC[AES256_GCM,data:QQ==,iv:QQ==,tag:QQ==,type:comment]"

/-- A document branch with one key `a` holding a sequence of two encrypted
sibling items. -/
def docC1 : EntryList :=
  .cons "a" (.seq (.cons (.leaf (.vStr encSample)) (.cons (.leaf (.vStr encSample)) .nil))) .nil

/-- A branch with a single plain (non-`ENC[...]`) scalar leaf. -/
def docC2 : EntryList := .cons "x" (.leaf (.vStr "hello")) .nil

/-- A root branch whose `sops` metadata carries an encrypted `mac` (decrypts
to `BEEF` under `oracleOf`) and a `lastmodified` stamp. -/
def docC3 : EntryList :=
  .cons "sops" (.map (.cons "mac" (.leaf (.vStr encSample))
    (.cons "lastmodified" (.leaf (.vStr "2021-02-03T04:05:06Z")) .nil))) .nil

/-- A root branch whose `sops` metadata has no `mac` field. -/
def docC3b : EntryList :=
  .cons "sops" (.map (.cons "lastmodified" (.leaf (.vStr "2021-02-03T04:05:06Z")) .nil)) .nil

/-- A tree whose only key source is one well-formed `gcp_kms` entry. -/
def docC6 : Node :=
  .map (.cons "sops" (.map (.cons "gcp_kms" (.seq (.cons
    (.map (.cons "enc" (.leaf (.vStr "Zm9v")) (.cons "resource_id" (.leaf (.vStr "rid1")) .nil)))
    .nil)) .nil)) .nil)

/-- A tree whose only `gcp_kms` entry lacks the `enc` field. -/
def docC6b : Node :=
  .map (.cons "sops" (.map (.cons "gcp_kms" (.seq (.cons
    (.map (.cons "resource_id" (.leaf (.vStr "rid1")) .nil)) .nil)) .nil)) .nil)

/-- A sample `utcnow() - 183 days` cutoff: 2025-04-12 00:00:00. -/
def sixSample : Nat := 20250412000000

/-- A tree with one stale `gcp_kms` key-wrapping entry (created 2020). -/
def docC8gcp : Node :=
  .map (.cons "sops" (.map (.cons "gcp_kms" (.seq (.cons
    (.map (.cons "created_at" (.leaf (.vStr "2020-01-01T00:00:00Z")) .nil)) .nil)) .nil)) .nil)

/-- The same stale entry, but registered under the `kms` backend list. -/
def docC8kms : Node :=
  .map (.cons "sops" (.map (.cons "kms" (.seq (.cons
    (.map (.cons "created_at" (.leaf (.vStr "2020-01-01T00:00:00Z")) .nil)) .nil)) .nil)) .nil)

/-- A plaintext subtree used to exercise the unencrypted suffix. -/
def docC7sub : Node :=
  .map (.cons "user" (.leaf (.vStr "alice"))
    (.cons "retries" (.leaf (.vInt 3))
      (.cons "hosts" (.seq (.cons (.leaf (.vStr "h1")) (.cons (.leaf (.vStr "h2")) .nil))) .nil)))

/-- The format gate `INPUT_VERSION > 0.8` of `_decrypt` is constant. -/
theorem gate08 : a_is_newer_than_b INPUT_VERSION "0.8" = .ok true := rfl

/-- The format gate `INPUT_VERSION > 0.9` of `_walk_and_decrypt` is constant. -/
theorem gate09 : a_is_newer_than_b INPUT_VERSION "0.9" = .ok true := rfl

/-- Every cipher call recorded by `_decrypt` beyond those already in the
state uses exactly the AAD passed to it. -/
theorem decryptScalar_calls (o : Oracle) (val : Value) (key aad : ByteStr)
    (ud unenc : Bool) (st : St) :
    ∀ c ∈ (decryptScalar o val key aad ud unenc st).2.calls,
      c ∈ st.calls ∨ c.aad = aad := by
  intro c hc
  by_cases hu : unenc
  · simp only [decryptScalar, if_pos hu] at hc
    split at hc <;> exact .inl hc
  · simp only [decryptScalar, if_neg hu] at hc
    rcases h1 : pyEncode val with e | vb <;> simp only [h1] at hc
    · exact .inl hc
    · rw [gate08] at hc
      simp only [] at hc
      rcases h2 : encMatch true vb with _ | ⟨g1, g2, g3, g4o⟩ <;> simp only [h2] at hc
      · exact .inl hc
      · rcases h3 : b64decodeB g1 with _ | ev <;> simp only [h3] at hc
        · exact .inl hc
        · rcases h4 : b64decodeB g2 with _ | iv <;> simp only [h4] at hc
          · exact .inl hc
          · rcases h5 : b64decodeB g3 with _ | tg <;> simp only [h5] at hc
            · exact .inl hc
            · have hmem : c ∈ st.calls ++ [(⟨key, iv, tg, aad, ev⟩ : CipherCall)] := by
                rcases h6 : o.aesgcm key iv tg aad ev with e | ct <;> simp only [h6] at hc
                · exact hc
                · repeat' split at hc
                  all_goals exact hc
              rcases List.mem_append.mp hmem with h | h
              · exact .inl h
              · right
                rw [List.mem_singleton.mp h]

mutual
/-- Every cipher call added while walking a node with inherited AAD `aad`
uses an AAD drawn from the node's leaf AADs. -/
theorem walkValue_calls_aux (o : Oracle) (key : ByteStr) (v : Node) (aad : ByteStr)
    (ud unenc : Bool) (st : St) :
    ∀ c ∈ (walkValue o key v aad ud unenc st).2.calls,
      c ∈ st.calls ∨ c.aad ∈ leafAadsV aad v := by
  intro c hc
  cases v with
  | map m =>
    rcases hE : walkEntries o key m aad aad ud false unenc st with ⟨r, st'⟩
    simp only [walkValue, hE] at hc
    have hc' : c ∈ st'.calls := by cases r <;> simpa using hc
    have h := walkEntries_calls_aux o key m aad aad ud false unenc st c (by rw [hE]; exact hc')
    simpa [leafAadsV] using h
  | seq xs =>
    rcases hE : walkItems o key xs aad ud unenc st with ⟨r, st'⟩
    simp only [walkValue, hE] at hc
    have hc' : c ∈ st'.calls := by cases r <;> simpa using hc
    have h := walkItems_calls_aux o key xs aad ud unenc st c (by rw [hE]; exact hc')
    simpa [leafAadsV] using h
  | leaf val =>
    rcases hE : decryptScalar o val key aad ud unenc st with ⟨r, st'⟩
    simp only [walkValue, hE] at hc
    have hc' : c ∈ st'.calls := by cases r <;> simpa using hc
    have h := decryptScalar_calls o val key aad ud unenc st c (by rw [hE]; exact hc')
    simpa [leafAadsV] using h

/-- Every cipher call added while walking mapping entries uses an AAD drawn
from the entries' leaf AADs. -/
theorem walkEntries_calls_aux (o : Oracle) (key : ByteStr) (es : EntryList)
    (aad carry : ByteStr) (ud : Bool) (isRoot unenc : Bool) (st : St) :
    ∀ c ∈ (walkEntries o key es aad carry ud isRoot unenc st).2.calls,
      c ∈ st.calls ∨ c.aad ∈ leafAadsE aad es := by
  intro c hc
  cases es with
  | nil =>
    simp only [walkEntries] at hc
    exact .inl hc
  | cons k v rest =>
    by_cases hks : k = "sops" ∧ isRoot = true
    · rcases hR : walkEntries o key rest aad carry ud isRoot unenc st with ⟨r, st'⟩
      simp only [walkEntries, if_pos hks, hR] at hc
      have hc' : c ∈ st'.calls := by cases r <;> simpa using hc
      have h := walkEntries_calls_aux o key rest aad carry ud isRoot unenc st c (by rw [hR]; exact hc')
      rcases h with h | h
      · exact .inl h
      · exact .inr (by simp [leafAadsE, h])
    · simp only [walkEntries, if_neg hks, gate09, if_true] at hc
      rcases hV : walkValue o key v (aad ++ encodeUtf8 k ++ [58]) ud
          (unenc || pyEndsWith k UNENCRYPTED_SUFFIX) st with ⟨rv, st1⟩
      simp only [hV] at hc
      cases rv with
      | error e =>
        have h := walkValue_calls_aux o key v (aad ++ encodeUtf8 k ++ [58]) ud
          (unenc || pyEndsWith k UNENCRYPTED_SUFFIX) st c (by rw [hV]; exact hc)
        rcases h with h | h
        · exact .inl h
        · exact .inr (by simp only [leafAadsE, List.mem_append]; exact .inl h)
      | ok v' =>
        rcases hR : walkEntries o key rest aad carry ud isRoot unenc st1 with ⟨rr, st2⟩
        simp only [hR] at hc
        have hc2 : c ∈ st2.calls := by cases rr <;> simpa using hc
        have h2 := walkEntries_calls_aux o key rest aad carry ud isRoot unenc st1 c (by rw [hR]; exact hc2)
        rcases h2 with h2 | h2
        · have h1 := walkValue_calls_aux o key v (aad ++ encodeUtf8 k ++ [58]) ud
            (unenc || pyEndsWith k UNENCRYPTED_SUFFIX) st c (by rw [hV]; exact h2)
          rcases h1 with h1 | h1
          · exact .inl h1
          · exact .inr (by simp only [leafAadsE, List.mem_append]; exact .inl h1)
        · exact .inr (by simp [leafAadsE, h2])

/-- Every cipher call added while walking sequence items uses an AAD drawn
from the items' leaf AADs (each item inherits the sequence AAD). -/
theorem walkItems_calls_aux (o : Oracle) (key : ByteStr) (xs : NodeList)
    (aad : ByteStr) (ud unenc : Bool) (st : St) :
    ∀ c ∈ (walkItems o key xs aad ud unenc st).2.calls,
      c ∈ st.calls ∨ c.aad ∈ leafAadsL aad xs := by
  intro c hc
  cases xs with
  | nil =>
    simp only [walkItems] at hc
    exact .inl hc
  | cons x rest =>
    rcases hV : walkValue o key x aad ud unenc st with ⟨rv, st1⟩
    simp only [walkItems, hV] at hc
    cases rv with
    | error e =>
      have h := walkValue_calls_aux o key x aad ud unenc st c (by rw [hV]; exact hc)
      rcases h with h | h
      · exact .inl h
      · exact .inr (by simp [leafAadsL, h])
    | ok x' =>
      rcases hR : walkItems o key rest aad ud unenc st1 with ⟨rr, st2⟩
      simp only [hR] at hc
      have hc2 : c ∈ st2.calls := by cases rr <;> simpa using hc
      have h2 := walkItems_calls_aux o key rest aad ud unenc st1 c (by rw [hR]; exact hc2)
      rcases h2 with h2 | h2
      · have h1 := walkValue_calls_aux o key x aad ud unenc st c (by rw [hV]; exact h2)
        rcases h1 with h1 | h1
        · exact .inl h1
        · exact .inr (by simp [leafAadsL, h1])
      · exact .inr (by simp [leafAadsL, h2])
end

/-- C1 (corrected): with the format ≥ 0.9 scheme, every AEAD decryption
performed while walking a node uses an AAD obtained from the inherited AAD by
appending `"<key>:"` for each enclosing mapping key only — sequence items
inherit their sequence's AAD unchanged, so sibling items share one AAD and no
index ever enters it (`leafAadsV` records exactly these AADs). -/
theorem C1_walk_aads (o : Oracle) (key : ByteStr) (v : Node) (aad : ByteStr)
    (ud unenc : Bool) (st : St) (c : CipherCall)
    (hc : c ∈ (walkValue o key v aad ud unenc st).2.calls) :
    c ∈ st.calls ∨ c.aad ∈ leafAadsV aad v :=
  walkValue_calls_aux o key v aad ud unenc st c hc

/-- C1 witness: walking a concrete two-item sequence, the recorded cipher
call's AAD is among the leaf AADs of the subtree. -/
theorem C1_walk_aads_witness :
    (⟨keyA, [65], [65], encodeUtf8 "a:", [65]⟩ : CipherCall) ∈ (stEmpty).calls ∨
    (⟨keyA, [65], [65], encodeUtf8 "a:", [65]⟩ : CipherCall).aad ∈
      leafAadsV [] (.map docC1) :=
  C1_walk_aads (oracleOf []) keyA (.map docC1) [] false false stEmpty
    ⟨keyA, [65], [65], encodeUtf8 "a:", [65]⟩ (by decide)

/-- C1 counterexample: in a document `{a: [ENC.., ENC..]}` the two sequence
siblings are decrypted with the SAME AAD `"a:"`, which contains no item
index — refuting that each item of a sequence gets its own independently
scoped AAD reflecting its full path of keys and indices. -/
theorem C1_counterexample :
    ((walk_and_decrypt (oracleOf []) keyA docC1 [] false false false false stEmpty).2.calls.map
        fun c => c.aad) = [encodeUtf8 "a:", encodeUtf8 "a:"] ∧
    bytesInfix (encodeUtf8 "0") (encodeUtf8 "a:") = false ∧
    bytesInfix (encodeUtf8 "1") (encodeUtf8 "a:") = false := by
  refine ⟨by rfl, by rfl, by rfl⟩

mutual
/-- Walking any node with `unencrypted=True` and an active digest returns it
unchanged, performs no cipher call, and feeds the raw leaf bytes to the
digest. -/
theorem walkValue_unenc (o : Oracle) (key : ByteStr) (v : Node) (aad : ByteStr) (st : St) :
    walkValue o key v aad true true st =
      (.ok v, { st with hashInput := st.hashInput ++ leafBytesV v }) := by
  cases v with
  | map m =>
    rw [walkValue, walkEntries_unenc]
    rfl
  | seq xs =>
    rw [walkValue, walkItems_unenc]
    rfl
  | leaf val =>
    rw [walkValue]
    simp [decryptScalar, leafBytesV]
/-- Walking mapping entries with `unencrypted=True` below the root is the
identity on the tree, with only the digest extended. -/
theorem walkEntries_unenc (o : Oracle) (key : ByteStr) (es : EntryList)
    (aad carry : ByteStr) (st : St) :
    walkEntries o key es aad carry true false true st =
      (.ok es, { st with hashInput := st.hashInput ++ leafBytesE es }) := by
  cases es with
  | nil => simp [walkEntries, leafBytesE]
  | cons k v rest =>
    rw [walkEntries]
    simp only [Bool.true_or, gate09, if_true]
    have hns : ¬ (k = "sops" ∧ false = true) := by simp
    rw [if_neg hns]
    simp only [walkValue_unenc, walkEntries_unenc]
    simp [leafBytesE, List.append_assoc]
/-- Walking sequence items with `unencrypted=True` is the identity on the
items, with only the digest extended. -/
theorem walkItems_unenc (o : Oracle) (key : ByteStr) (xs : NodeList)
    (aad : ByteStr) (st : St) :
    walkItems o key xs aad true true st =
      (.ok xs, { st with hashInput := st.hashInput ++ leafBytesL xs }) := by
  cases xs with
  | nil => simp [walkItems, leafBytesL]
  | cons x rest =>
    rw [walkItems]
    simp only [walkValue_unenc, walkItems_unenc]
    simp [leafBytesL, List.append_assoc]
end

/-- C7 (confirmed): when a mapping key ends in the designated suffix
`_unencrypted`, its entire subtree is returned unchanged, the AEAD decryptor
is never invoked below it (calls and warnings are untouched), and the raw
bytes of every descendant leaf are still fed, in traversal order, into the
running document digest. -/
theorem C7_unencrypted_suffix (o : Oracle) (key : ByteStr) (k : String) (v : Node)
    (aad carry : ByteStr) (isRoot unenc : Bool) (st : St)
    (h : pyEndsWith k UNENCRYPTED_SUFFIX = true) :
    walkEntries o key (.cons k v .nil) aad carry true isRoot unenc st =
      (.ok (.cons k v .nil), { st with hashInput := st.hashInput ++ leafBytesV v }) := by
  have hks : ¬ (k = "sops" ∧ isRoot = true) := by
    rintro ⟨hk, -⟩
    rw [hk] at h
    exact absurd h (by decide)
  rw [walkEntries, if_neg hks]
  rw [gate09]
  simp only [if_true, h, Bool.or_true]
  simp only [walkValue_unenc]
  simp [walkEntries, leafBytesE]

/-- C7 witness: a concrete `db_unencrypted` subtree (nested mapping with a
string, an int and a two-item sequence) passes through unchanged with its raw
bytes digested and no cipher call made. -/
theorem C7_unencrypted_suffix_witness :
    walkEntries (oracleOf []) keyA (.cons "db_unencrypted" docC7sub .nil) [] [] true false false
      stEmpty =
      (.ok (.cons "db_unencrypted" docC7sub .nil),
        { stEmpty with hashInput := stEmpty.hashInput ++ leafBytesV docC7sub }) :=
  C7_unencrypted_suffix (oracleOf []) keyA "db_unencrypted" docC7sub [] [] false false stEmpty
    (by decide)

/-- C2 counterexample: a scalar that does not match the `ENC[...]` framing is
returned unchanged but its bytes do NOT enter the digest: walking
`{x: "hello"}` (digest active, nothing marked unencrypted) ends with an empty
digest stream that does not contain `"hello"` — refuting that every
passed-through leaf updates the document digest. -/
theorem C2_counterexample :
    walkEntries (oracleOf []) keyA docC2 [] [] true false false stEmpty =
      (.ok docC2, stEmpty) ∧
    bytesInfix (encodeUtf8 "hello")
      (walkEntries (oracleOf []) keyA docC2 [] [] true false false stEmpty).2.hashInput = false :=
  ⟨by rfl, by rfl⟩

/-- C2 (corrected): how `_decrypt` feeds the document digest, with the digest
object passed: (a) a leaf in an unencrypted subtree contributes its raw
`_to_bytes`; (b) a scalar that does not match the encrypted framing is
returned unchanged and contributes nothing; (c) a scalar that matches and
authenticates contributes exactly its recovered cleartext, in traversal
order. -/
theorem C2_digest_contributions :
    (∀ (o : Oracle) (val : Value) (key aad : ByteStr) (st : St),
      decryptScalar o val key aad true true st =
        (.ok val, { st with hashInput := st.hashInput ++ to_bytes val })) ∧
    (∀ (o : Oracle) (val : Value) (vb key aad : ByteStr) (st : St),
      pyEncode val = .ok vb → encMatch true vb = none →
      decryptScalar o val key aad true false st = (.ok val, st)) ∧
    (∀ (o : Oracle) (val : Value) (vb key aad : ByteStr) (st : St)
       (g1 g2 g3 : ByteStr) (g4o : Option ByteStr) (ev iv tg c : ByteStr),
      pyEncode val = .ok vb → encMatch true vb = some (g1, g2, g3, g4o) →
      b64decodeB g1 = some ev → b64decodeB g2 = some iv → b64decodeB g3 = some tg →
      o.aesgcm key iv tg aad ev = .ok c →
      (decryptScalar o val key aad true false st).2.hashInput = st.hashInput ++ c) := by
  refine ⟨fun o val key aad st => by simp [decryptScalar], ?_, ?_⟩
  · intro o val vb key aad st h1 h2
    simp only [decryptScalar, if_neg (by simp : ¬ (false = true)), h1, gate08, h2]
  · intro o val vb key aad st g1 g2 g3 g4o ev iv tg c h1 h2 h3 h4 h5 h6
    simp only [decryptScalar, if_neg (by simp : ¬ (false = true)), h1, gate08, h2, h3, h4, h5,
      h6, if_true]
    repeat' split
    all_goals rfl

/-- C2 witness: concretely, a passed-through plain scalar leaves the digest
stream untouched while a decrypted scalar appends its cleartext `yes`. -/
theorem C2_digest_contributions_witness :
    decryptScalar (oracleOf (encodeUtf8 "yes")) (.vStr "hello") keyA [] true false stEmpty =
      (.ok (.vStr "hello"), stEmpty) ∧
    (decryptScalar (oracleOf (encodeUtf8 "yes")) (.vStr encSample) keyA [] true false
      stEmpty).2.hashInput = stEmpty.hashInput ++ encodeUtf8 "yes" :=
  ⟨C2_digest_contributions.2.1 (oracleOf (encodeUtf8 "yes")) (.vStr "hello")
      (encodeUtf8 "hello") keyA [] stEmpty (by rfl) (by rfl),
   C2_digest_contributions.2.2 (oracleOf (encodeUtf8 "yes")) (.vStr encSample)
      (encodeUtf8 encSample) keyA [] stEmpty (encodeUtf8 "QQ==") (encodeUtf8 "QQ==")
      (encodeUtf8 "QQ==") (some (encodeUtf8 "str")) [65] [65] [65] (encodeUtf8 "yes")
      (by rfl) (by rfl) (by rfl) (by rfl) (by rfl) (by rfl)⟩

/-- C10 (confirmed): the reserved key `sops` is special-cased only at the
root.  At the root its entry is kept verbatim and the state (digest, cipher
calls, warnings) is not touched for it; below the root a `sops` key is
processed exactly like any other entry: its leaf is handed to `_decrypt`
with the properly scoped AAD `parent ++ "sops:"`, updating the digest. -/
theorem C10_sops_root_only :
    (∀ (o : Oracle) (key : ByteStr) (v : Node) (rest : EntryList) (aad carry : ByteStr)
       (ud unenc : Bool) (st : St),
      walkEntries o key (.cons "sops" v rest) aad carry ud true unenc st =
        match walkEntries o key rest aad carry ud true unenc st with
        | (.ok rest', st') => (.ok (.cons "sops" v rest'), st')
        | (.error e, st') => (.error e, st')) ∧
    (∀ (o : Oracle) (key : ByteStr) (val : Value) (rest : EntryList) (aad carry : ByteStr)
       (ud unenc : Bool) (st : St),
      walkEntries o key (.cons "sops" (.leaf val) rest) aad carry ud false unenc st =
        match decryptScalar o val key (aad ++ encodeUtf8 "sops" ++ [58]) ud unenc st with
        | (.error e, st') => (.error e, st')
        | (.ok w, st') =>
          match walkEntries o key rest aad carry ud false unenc st' with
          | (.ok rest', st'') => (.ok (.cons "sops" (.leaf w) rest'), st'')
          | (.error e, st'') => (.error e, st'')) := by
  constructor
  · intro o key v rest aad carry ud unenc st
    rw [walkEntries, if_pos ⟨rfl, rfl⟩]
  · intro o key val rest aad carry ud unenc st
    rw [walkEntries, if_neg (by simp), gate09]
    have hsuf : pyEndsWith "sops" UNENCRYPTED_SUFFIX = false := by decide
    simp only [if_true, hsuf, Bool.or_false, walkValue]
    rcases hd : decryptScalar o val key (aad ++ encodeUtf8 "sops" ++ [58]) ud unenc st
      with ⟨r, st'⟩
    cases r <;> rfl

/-- C5 (code_bug): decrypting a scalar whose declared type tag is the
unknown `comment` does not produce the intended `_panic("unknown type ...")`
`SystemExit`: under Python 3 `valtype` is a regex group over `bytes`, so the
message concatenation `"unknown type " + valtype` at yaml.py line 170 raises
`TypeError` before `_panic` can run.  The cipher call itself has already
happened. -/
theorem C5_unknown_type_tag :
    decryptScalar (oracleOf []) (.vStr encBadSample) keyA [] false false stEmpty =
      (.error .typeError,
        { stEmpty with calls := [⟨keyA, [65], [65], [], [65]⟩] }) ∧
    (∀ msg code, PyErr.typeError ≠ panicErr msg code) :=
  ⟨by rfl, fun _ _ => by simp [panicErr]⟩

/-- C3 (confirmed): after a full root traversal with verification enabled
(`ignoreMac = False`), the stored MAC is decrypted with the same data key
using the document's `lastmodified` timestamp as AAD and compared against
the uppercased finalized digest: a metadata branch without a `mac` field
aborts with the `_panic(..., 52)` missing-integrity error, and a mismatch
aborts with the `_panic(..., 51)` checksum error reporting both values. -/
theorem C3_mac_verification (o : Oracle) (key : ByteStr) (branch : EntryList)
    (aad : ByteStr) (ud unenc : Bool) (st : St) (es' : EntryList) (st1 : St)
    (h1 : walkEntries o key branch aad aad true true unenc { st with hashInput := [] } =
      (.ok es', st1)) :
    (∀ sopsN, es'.lookup "sops" = some sopsN → pyContains "mac" sopsN = .ok false →
      walk_and_decrypt o key branch aad ud true false unenc st =
        (.error (panicErr "\x27mac\x27 not found, unable to verify file integrity" 52), st1)) ∧
    (∀ sopsN mv lm ov st2, es'.lookup "sops" = some sopsN → pyContains "mac" sopsN = .ok true →
      pyIndex sopsN "mac" = .ok (.leaf mv) →
      pyIndex sopsN "lastmodified" = .ok (.leaf (.vStr lm)) →
      decryptScalar o mv key (encodeUtf8 lm) false false st1 = (.ok ov, st2) →
      pyEqV ov (.vStr (pyUpper (o.sha512hex st1.hashInput))) = false →
      walk_and_decrypt o key branch aad ud true false unenc st =
        (.error (panicErr ("Checksum verification failed!\nexpected " ++ pyStr ov ++
          "\nbut got  " ++ pyUpper (o.sha512hex st1.hashInput)) 51), st2)) := by
  have hroot : ((true : Bool) = true ∧ ¬ (false : Bool) = true) := by simp
  constructor
  · intro sopsN hL hM
    simp [walk_and_decrypt, verifyMac, h1, hL, hM]
  · intro sopsN mv lm ov st2 hL hM hMac hLm hDec hNe
    simp [walk_and_decrypt, verifyMac, h1, hL, hM, hMac, hLm, hDec, hNe]

/-- C3 witness: on concrete documents, a missing `mac` aborts with the
code-52 panic, and a digest/MAC mismatch (stored MAC decrypts to `BEEF`, the
digest hex is `abcd`) aborts with the code-51 panic reporting both values,
after one cipher call whose AAD is the `lastmodified` stamp. -/
theorem C3_mac_verification_witness :
    walk_and_decrypt (oracleOf (encodeUtf8 "BEEF")) keyA docC3b [] false true false false
      stEmpty =
      (.error (panicErr "\x27mac\x27 not found, unable to verify file integrity" 52), stEmpty) ∧
    walk_and_decrypt (oracleOf (encodeUtf8 "BEEF")) keyA docC3 [] false true false false
      stEmpty =
      (.error (panicErr "Checksum verification failed!\nexpected BEEF\nbut got  ABCD" 51),
        { stEmpty with calls :=
          [⟨keyA, [65], [65], encodeUtf8 "2021-02-03T04:05:06Z", [65]⟩] }) := by
  constructor
  · exact (C3_mac_verification (oracleOf (encodeUtf8 "BEEF")) keyA docC3b [] false false
      stEmpty docC3b stEmpty (by rfl)).1
      (.map (.cons "lastmodified" (.leaf (.vStr "2021-02-03T04:05:06Z")) .nil))
      (by rfl) (by rfl)
  · exact (C3_mac_verification (oracleOf (encodeUtf8 "BEEF")) keyA docC3 [] false false
      stEmpty docC3 stEmpty (by rfl)).2
      (.map (.cons "mac" (.leaf (.vStr encSample))
        (.cons "lastmodified" (.leaf (.vStr "2021-02-03T04:05:06Z")) .nil)))
      (.vStr encSample) "2021-02-03T04:05:06Z" (.vStr "BEEF")
      { stEmpty with calls := [⟨keyA, [65], [65], encodeUtf8 "2021-02-03T04:05:06Z", [65]⟩] }
      (by rfl) (by rfl) (by rfl) (by rfl) (by rfl) (by rfl)

/-- C9 (confirmed): decoding an encrypted scalar whose declared type tag is
`bool` never raises, whatever the recovered plaintext: the result is `True`
exactly when the ASCII-lowercased cleartext is the bytes `true`, and `False`
for every other plaintext (`yes`, `1`, the empty string, arbitrary text). -/
theorem C9_bool_decode (o : Oracle) (key aad : ByteStr) (s : String) (ud : Bool) (st : St)
    (g1 g2 g3 ev iv tg c : ByteStr)
    (h1 : encMatch true (encodeUtf8 s) = some (g1, g2, g3, some (encodeUtf8 "bool")))
    (h2 : b64decodeB g1 = some ev) (h3 : b64decodeB g2 = some iv)
    (h4 : b64decodeB g3 = some tg)
    (h5 : o.aesgcm key iv tg aad ev = .ok c) :
    decryptScalar o (.vStr s) key aad ud false st =
      (.ok (.vBool (decide (asciiLower c = encodeUtf8 "true"))),
        let st1 := { st with calls := st.calls ++ [⟨key, iv, tg, aad, ev⟩] }
        if ud then { st1 with hashInput := st1.hashInput ++ c } else st1) := by
  have hpe : pyEncode (.vStr s) = .ok (encodeUtf8 s) := rfl
  simp only [decryptScalar, if_neg (by simp : ¬ (false = true)), hpe, gate08, h1, h2, h3, h4,
    h5, if_true]
  have hb : ¬ (ValType.pbytes (encodeUtf8 "bool")).eqBytes (encodeUtf8 "bytes") = true := by
    decide
  have hs : ¬ (ValType.pbytes (encodeUtf8 "bool")).eqBytes (encodeUtf8 "str") = true := by
    decide
  have hi : ¬ (ValType.pbytes (encodeUtf8 "bool")).eqBytes (encodeUtf8 "int") = true := by
    decide
  have hf : ¬ (ValType.pbytes (encodeUtf8 "bool")).eqBytes (encodeUtf8 "float") = true := by
    decide
  have hbo : (ValType.pbytes (encodeUtf8 "bool")).eqBytes (encodeUtf8 "bool") = true := by
    decide
  simp only [hb, hs, hi, hf, hbo, if_false, if_true]
  cases ud <;> simp

/-- C9 witness: a `bool`-tagged scalar whose plaintext is `yes` decodes to
`False` without error. -/
theorem C9_bool_decode_witness :
    decryptScalar (oracleOf (encodeUtf8 "yes")) (.vStr encBoolSample) keyA [] false false
      stEmpty =
      (.ok (.vBool false),
        { stEmpty with calls := [⟨keyA, [65], [65], [], encodeUtf8 "yes"⟩] }) := by
  have h := C9_bool_decode (oracleOf (encodeUtf8 "yes")) keyA [] encBoolSample false stEmpty
    (encodeUtf8 "eWVz") (encodeUtf8 "QQ==") (encodeUtf8 "QQ==")
    (encodeUtf8 "yes") [65] [65] (encodeUtf8 "yes")
    (by rfl) (by rfl) (by rfl) (by rfl) (by rfl)
  exact h

/-- `Except` bind on a success reduces to the continuation. -/
theorem exceptBind_ok {α β ε : Type} (a : α) (f : α → Except ε β) :
    (Except.ok a >>= f) = f a := rfl

/-- `Except` bind on an error propagates the error. -/
theorem exceptBind_err {α β ε : Type} (e : ε) (f : α → Except ε β) :
    ((Except.error e : Except ε α) >>= f) = .error e := rfl

/-- The loop of `_a_is_newer_than_b` returns early with `True` iff some
compared component of `A` strictly exceeds `B`'s (not only at the first
differing position); otherwise it reports whether all compared components
were equal. -/
theorem verLoop_spec (sa : List String) : ∀ (sb : List String) (as bs : List Int) (eq : Bool),
    parseComps sa = .ok as → parseComps sb = .ok bs →
    ∃ r, verLoop sa sb eq = .ok r ∧ r.1 = anyGreater as bs ∧
      (r.1 = false → r.2 = (eq && allEqComp as bs)) := by
  induction sa with
  | nil =>
    intro sb as bs eq ha hb
    have has : as = [] := by simpa [parseComps] using ha.symm
    subst has
    refine ⟨(false, eq), ?_, by simp [anyGreater], by simp [allEqComp]⟩
    cases sb <;> rfl
  | cons a sa ih =>
    intro sb as bs eq ha hb
    rcases hpa : pyIntParse a with e | ai
    · simp [parseComps, hpa, exceptBind_err] at ha
    rcases hra : parseComps sa with e | as'
    · simp [parseComps, hpa, hra, exceptBind_ok, exceptBind_err] at ha
    have has : as = ai :: as' := by
      simpa [parseComps, hpa, hra, exceptBind_ok] using ha.symm
    subst has
    cases sb with
    | nil =>
      have hbs : bs = [] := by simpa [parseComps] using hb.symm
      subst hbs
      exact ⟨(false, eq), rfl, by simp [anyGreater], by simp [allEqComp]⟩
    | cons b sb' =>
      rcases hpb : pyIntParse b with e | bi
      · simp [parseComps, hpb, exceptBind_err] at hb
      rcases hrb : parseComps sb' with e | bs'
      · simp [parseComps, hpb, hrb, exceptBind_ok, exceptBind_err] at hb
      have hbs : bs = bi :: bs' := by
        simpa [parseComps, hpb, hrb, exceptBind_ok] using hb.symm
      subst hbs
      by_cases hgt : bi < ai
      · refine ⟨(true, eq), ?_, ?_, by simp⟩
        · simp [verLoop, hpa, hpb, exceptBind_ok, hgt]
        · simp [anyGreater, hgt]
      · obtain ⟨r, hr, h1, h2⟩ := ih sb' as' bs' (eq && decide (ai = bi)) hra hrb
        refine ⟨r, ?_, ?_, ?_⟩
        · simp [verLoop, hpa, hpb, exceptBind_ok, hgt, hr]
        · simp [anyGreater, hgt, h1, List.any_cons]
        · intro hf
          rw [h2 hf]
          simp [allEqComp, Bool.and_assoc]

/-- `parseComps` preserves the number of components. -/
theorem parseComps_length : ∀ (l : List String) (xs : List Int),
    parseComps l = .ok xs → xs.length = l.length := by
  intro l
  induction l with
  | nil =>
    intro xs h
    have hx : xs = [] := by simpa [parseComps] using h.symm
    simp [hx]
  | cons s rest ih =>
    intro xs h
    rcases hp : pyIntParse s with e | i
    · simp [parseComps, hp, exceptBind_err] at h
    rcases hrr : parseComps rest with e | is
    · simp [parseComps, hp, hrr, exceptBind_ok, exceptBind_err] at h
    have hx : xs = i :: is := by simpa [parseComps, hp, hrr, exceptBind_ok] using h.symm
    subst hx
    simp [ih is hrr]

/-- C4 (corrected): `_a_is_newer_than_b` returns `True` iff SOME compared
component of `A` strictly exceeds the corresponding component of `B` — the
first differing position does not decide the outcome — or all compared
components are equal and `A` has more components. -/
theorem C4_version_compare (A B : String) (as bs : List Int)
    (hA : parseComps (pySplitDot A) = .ok as)
    (hB : parseComps (pySplitDot B) = .ok bs) :
    a_is_newer_than_b A B =
      .ok (anyGreater as bs || (allEqComp as bs && decide (bs.length < as.length))) := by
  obtain ⟨r, hr, h1, h2⟩ := verLoop_spec (pySplitDot A) (pySplitDot B) as bs true hA hB
  rcases r with ⟨early, eq⟩
  have h1' : early = anyGreater as bs := h1
  have h2' : early = false → eq = (true && allEqComp as bs) := h2
  cases early with
  | true =>
    simp only [a_is_newer_than_b, hr, exceptBind_ok, ← h1', Bool.true_or, if_true]
  | false =>
    have heq := h2' rfl
    rw [Bool.true_and] at heq
    have hlA := parseComps_length (pySplitDot A) as hA
    have hlB := parseComps_length (pySplitDot B) bs hB
    simp only [a_is_newer_than_b, hr, exceptBind_ok, ← h1', heq, Bool.false_or, ← hlA, ← hlB,
      Bool.false_eq_true, if_false]

/-- C4 witness: `1.1.2` is considered newer than `1.1` (equal compared
components, more components), matching the characterization. -/
theorem C4_version_compare_witness :
    a_is_newer_than_b "1.1.2" "1.1" =
      .ok (anyGreater [1, 1, 2] [1, 1] ||
        (allEqComp [1, 1, 2] [1, 1] && decide (([1, 1] : List Int).length < ([1, 1, 2] : List Int).length))) :=
  C4_version_compare "1.1.2" "1.1" [1, 1, 2] [1, 1] (by rfl) (by rfl)

/-- C4 counterexample: `_a_is_newer_than_b` declares `1.2` newer than `2.1`
AND `2.1` newer than `1.2` — the later greater component `2 > 1` wins even
though the first differing position has `1 < 2` — whereas the claimed
first-difference semantics makes `1.2` NOT newer than `2.1`. -/
theorem C4_counterexample :
    a_is_newer_than_b "1.2" "2.1" = .ok true ∧
    a_is_newer_than_b "2.1" "1.2" = .ok true ∧
    claimIsNewer [1, 2] [2, 1] = false :=
  ⟨by rfl, by rfl, by rfl⟩

/-- C6 counterexample: with one well-formed `gcp_kms` entry whose unwrap
fails with reason `boom` and no other backend, key acquisition aborts with
the generic key-unavailable panic whose message does NOT carry the recorded
reason (the reason surfaces only among the warnings); moreover an entry that
lacks its `enc` ciphertext is skipped with NO warning at all. -/
theorem C6_counterexample :
    (get_key oracleBoom docC6 stEmpty).1 =
      .error (panicErr "could not retrieve a key to encrypt/decrypt the tree" 1) ∧
    (get_key oracleBoom docC6 stEmpty).2.warnings =
      ["WARN: no KMS client could be accessed:", "* kms rid1 failed with error: boom "] ∧
    strInfix "boom" "Decrypt error: could not retrieve a key to encrypt/decrypt the tree" =
      false ∧
    get_key_from_kms oracleBoom docC6b stEmpty =
      (.ok none, { stEmpty with warnings := ["WARN: no KMS client could be accessed:"] }) :=
  ⟨by rfl, by rfl, by rfl, by rfl⟩

/-- C6 (corrected): key acquisition tries the KMS entries in document order:
falsy entries are skipped silently, entries without `enc` are skipped
silently, entries without a usable resource id are skipped WITH a warning,
a failed unwrap records its reason and moves on, the first successful unwrap
returns immediately, exhaustion emits the accumulated reasons as warnings
and returns `None`, and when no backend yields a key the session aborts with
a generic fatal message that does not itself carry the reasons. -/
theorem C6_key_acquisition :
    (∀ (o : Oracle) (e : Node) (rest : NodeList) (i : Int) (errs : List String) (st : St),
      pyTruthy e = false → kmsLoop o (.cons e rest) i errs st = kmsLoop o rest i errs st) ∧
    (∀ (o : Oracle) (e : Node) (rest : NodeList) (i : Int) (errs : List String) (st : St),
      pyTruthy e = true → pyIndex e "enc" = .error (.keyError "enc") →
      kmsLoop o (.cons e rest) i errs st = kmsLoop o rest (i + 1) errs st) ∧
    (∀ (o : Oracle) (e : Node) (rest : NodeList) (i : Int) (errs : List String) (st : St)
       (encN : Node),
      pyTruthy e = true → pyIndex e "enc" = .ok encN →
      pyContains "resource_id" e = .ok false →
      kmsLoop o (.cons e rest) i errs st = kmsLoop o rest (i + 1) errs
        { st with warnings := st.warnings ++
          ["WARN: KMS resource id not found skipping entry " ++ pyStrInt (i + 1)] }) ∧
    (∀ (o : Oracle) (e : Node) (rest : NodeList) (i : Int) (errs : List String) (st : St)
       (encN : Node) (rid : String) (pt : ByteStr),
      pyTruthy e = true → pyIndex e "enc" = .ok encN →
      pyContains "resource_id" e = .ok true →
      pyIndex e "resource_id" = .ok (.leaf (.vStr rid)) → rid ≠ "" →
      kmsUnwrap o rid encN = .ok pt →
      kmsLoop o (.cons e rest) i errs st = (.ok (some pt), st)) ∧
    (∀ (o : Oracle) (e : Node) (rest : NodeList) (i : Int) (errs : List String) (st : St)
       (encN : Node) (rid : String) (m : String),
      pyTruthy e = true → pyIndex e "enc" = .ok encN →
      pyContains "resource_id" e = .ok true →
      pyIndex e "resource_id" = .ok (.leaf (.vStr rid)) → rid ≠ "" →
      kmsUnwrap o rid encN = .error m →
      kmsLoop o (.cons e rest) i errs st = kmsLoop o rest (i + 1)
        (errs ++ ["kms " ++ rid ++ " failed with error: " ++ m ++ " "]) st) ∧
    (∀ (o : Oracle) (i : Int) (errs : List String) (st : St),
      kmsLoop o .nil i errs st = (.ok none, { st with warnings := st.warnings ++
        ["WARN: no KMS client could be accessed:"] ++ errs.map (fun e => "* " ++ e) })) ∧
    (∀ (o : Oracle) (t : Node) (st st' : St) (k : ByteStr),
      get_key_from_kms o t st = (.ok (some k), st') → get_key o t st = (.ok k, st')) ∧
    (∀ (o : Oracle) (t : Node) (st st' st'' : St),
      get_key_from_kms o t st = (.ok none, st') →
      get_key_from_pgp o t st' = (.ok none, st'') →
      get_key o t st =
        (.error (panicErr "could not retrieve a key to encrypt/decrypt the tree" 1), st'')) := by
  refine ⟨?_, ?_, ?_, ?_, ?_, ?_, ?_, ?_⟩
  · intro o e rest i errs st h
    simp [kmsLoop, h]
  · intro o e rest i errs st h1 h2
    simp [kmsLoop, h1, h2]
  · intro o e rest i errs st encN h1 h2 h3
    simp [kmsLoop, h1, h2, h3]
  · intro o e rest i errs st encN rid pt h1 h2 h3 h4 h5 h6
    have hne : ¬ ((Node.leaf (.vStr rid)) = .leaf (.vStr "")) := by simp [h5]
    simp [kmsLoop, h1, h2, h3, h4, hne, h6]
  · intro o e rest i errs st encN rid m h1 h2 h3 h4 h5 h6
    have hne : ¬ ((Node.leaf (.vStr rid)) = .leaf (.vStr "")) := by simp [h5]
    simp [kmsLoop, h1, h2, h3, h4, hne, h6]
  · intro o i errs st
    rw [kmsLoop]
  · intro o t st st' k h
    simp [get_key, h]
  · intro o t st st' st'' h1 h2
    simp [get_key, h1, h2]

/-- C6 witness: a concrete well-formed entry unwraps on the first try, and
with the failing oracle both backends come up empty and the generic fatal
panic is raised with the reason left in the warnings. -/
theorem C6_key_acquisition_witness :
    kmsLoop oracleKmsOk
      (.cons (.map (.cons "enc" (.leaf (.vStr "Zm9v"))
        (.cons "resource_id" (.leaf (.vStr "rid1")) .nil))) .nil) (-1) [] stEmpty =
      (.ok (some (encodeUtf8 "KEY")), stEmpty) ∧
    get_key oracleBoom docC6 stEmpty =
      (.error (panicErr "could not retrieve a key to encrypt/decrypt the tree" 1),
        { stEmpty with warnings :=
          ["WARN: no KMS client could be accessed:", "* kms rid1 failed with error: boom "] }) := by
  constructor
  · exact C6_key_acquisition.2.2.2.1 oracleKmsOk
      (.map (.cons "enc" (.leaf (.vStr "Zm9v")) (.cons "resource_id" (.leaf (.vStr "rid1")) .nil)))
      .nil (-1) [] stEmpty (.leaf (.vStr "Zm9v")) "rid1" (encodeUtf8 "KEY")
      (by rfl) (by rfl) (by rfl) (by rfl) (by decide) (by rfl)
  · exact C6_key_acquisition.2.2.2.2.2.2.2 oracleBoom docC6 stEmpty
      { stEmpty with warnings :=
        ["WARN: no KMS client could be accessed:", "* kms rid1 failed with error: boom "] }
      { stEmpty with warnings :=
        ["WARN: no KMS client could be accessed:", "* kms rid1 failed with error: boom "] }
      (by rfl) (by rfl)

/-- C8 counterexample: a `gcp_kms` key-wrapping entry created in 2020 —
long before the 183-day cutoff — triggers NO rotation advisory, because
`_check_rotation_needed` scans only the `kms` and `pgp` backend lists; the
identical entry under `kms` does trigger it. -/
theorem C8_counterexample :
    strptimeZ "2020-01-01T00:00:00Z" = .ok 20200101000000 ∧
    20200101000000 < sixSample ∧
    check_rotation_needed sixSample docC8gcp = .ok false ∧
    check_rotation_needed sixSample docC8kms = .ok true :=
  ⟨by rfl, by decide, by rfl, by rfl⟩

/-- C8 (corrected): the rotation advisory is purely observational — the
decrypted result is identical under any cutoff for which the scan succeeds
— but it only ever scans the `kms` and `pgp` entry lists of the metadata
branch: a metadata branch without those keys (whatever its `gcp_kms`
entries) never produces an advisory. -/
theorem C8_rotation_advisory :
    (∀ (o : Oracle) (s1 s2 : Nat) (t : Node) (ig : Bool) (st : St) (b1 b2 : Bool),
      check_rotation_needed s1 t = .ok b1 → check_rotation_needed s2 t = .ok b2 →
      decrypt_stream o s1 t ig st = decrypt_stream o s2 t ig st) ∧
    (∀ (six : Nat) (sopsE : EntryList),
      sopsE.hasKey "kms" = false → sopsE.hasKey "pgp" = false →
      check_rotation_needed six (.map (.cons "sops" (.map sopsE) .nil)) = .ok false) := by
  constructor
  · intro o s1 s2 t ig st b1 b2 h1 h2
    rcases hk : get_key o t st with ⟨r, st'⟩
    cases r with
    | error e => simp [decrypt_stream, hk]
    | ok key => simp [decrypt_stream, hk, h1, h2]
  · intro six sopsE h1 h2
    simp [check_rotation_needed, pyIndex, EntryList.lookup, pyContains, h1, h2,
      exceptBind_ok]
    rfl

/-- C8 witness: on the concrete 2020-dated `gcp_kms` document the decrypt
result is the same under two different cutoffs, and a metadata branch
holding only `gcp_kms` never sets the advisory flag. -/
theorem C8_rotation_advisory_witness :
    decrypt_stream oracleBoom 0 docC8gcp false stEmpty =
      decrypt_stream oracleBoom sixSample docC8gcp false stEmpty ∧
    check_rotation_needed sixSample
      (.map (.cons "sops" (.map (.cons "gcp_kms" (.seq (.cons
        (.map (.cons "created_at" (.leaf (.vStr "2020-01-01T00:00:00Z")) .nil)) .nil)) .nil))
        .nil)) = .ok false := by
  constructor
  · exact C8_rotation_advisory.1 oracleBoom 0 sixSample docC8gcp false stEmpty false false
      (by rfl) (by rfl)
  · exact C8_rotation_advisory.2 sixSample
      (.cons "gcp_kms" (.seq (.cons
        (.map (.cons "created_at" (.leaf (.vStr "2020-01-01T00:00:00Z")) .nil)) .nil)) .nil)
      (by rfl) (by rfl)
